import Mathlib

/-
Shallow embedding of yoshuawuyts/playground-future-2.0.

Source layout:
  src/future.rs  — Interest, Waitable, the Future (poll/take) trait
  src/tcp.rs     — AsyncTcpStream, ReadFuture, CloseFuture
  src/runtime.rs — Poller (kqueue wrapper) and Poller::block_on

Modelling conventions:
  * RawFd is modelled as Int.
  * Bytes are modelled as Nat (u8 values; no arithmetic on them occurs).
  * io::Result<T> is Except IOError T; io::ErrorKind collapses to the
    distinction the code actually inspects: WouldBlock versus anything else
    (non-WouldBlock kinds carry a Nat code so distinct errors stay distinct).
  * The operating system is modelled by oracles: the outcome of the i-th
    read(2) call on a stream, and the outcome of the i-th kevent(2) call on
    a kqueue, are given by attempt-indexed functions.  This captures that
    the Rust code only observes syscall return values.
  * &mut self methods become state-passing functions returning the updated
    state alongside the Rust return value.
-/

namespace PlaygroundFuture

/-- Kind of readiness a registration cares about (src/future.rs, enum Interest). -/
inductive Interest where
  | Read
  | Close
deriving DecidableEq, Repr

/-- A registered file descriptor paired with an interest
(src/future.rs, enum Waitable, variant Fd(RawFd, Interest)). -/
inductive Waitable where
  | Fd (fd : Int) (interest : Interest)
deriving DecidableEq, Repr

/-- Whether a waitable carries Read interest. -/
def Waitable.isRead : Waitable → Bool
  | .Fd _ .Read => true
  | .Fd _ .Close => false

/-- The slice of io::ErrorKind the code distinguishes: WouldBlock against
every other kind (other kinds tagged by a Nat so different errors differ). -/
inductive ErrorKind where
  | wouldBlock
  | other (code : Nat)
deriving DecidableEq, Repr

/-- An io::Error, reduced to the kind, which is all the code inspects. -/
structure IOError where
  kind : ErrorKind
deriving DecidableEq, Repr

/-- Outcome of one read(2) call on the non-blocking stream: either the bytes
the kernel delivers, or an error (WouldBlock among them). -/
inductive ReadOutcome where
  | ok (data : List Nat)
  | err (e : IOError)
deriving DecidableEq, Repr

/-- src/tcp.rs, struct AsyncTcpStream(TcpStream): the non-blocking stream,
modelled by its raw descriptor plus an oracle giving the outcome of each
successive read attempt (readPos counts attempts made so far). -/
structure AsyncTcpStream where
  fd : Int
  readSeq : Nat → ReadOutcome
  readPos : Nat

/-- One non-blocking `self.0.read(&mut buf)` call: consumes the next oracle
outcome; on success the kernel writes at most `buf.length` bytes into the
front of the buffer and returns the count; on error the buffer is untouched. -/
def AsyncTcpStream.readStep (s : AsyncTcpStream) (buf : List Nat) :
    AsyncTcpStream × List Nat × Except IOError Nat :=
  match s.readSeq s.readPos with
  | .ok data =>
      let d := data.take buf.length
      ({ s with readPos := s.readPos + 1 }, d ++ buf.drop d.length, .ok d.length)
  | .err e => ({ s with readPos := s.readPos + 1 }, buf, .error e)

/-- src/tcp.rs, struct ReadFuture: borrowed stream, caller buffer, and the
cached output (`output: Option<io::Result<usize>>`). -/
structure ReadFuture where
  client : AsyncTcpStream
  buffer : List Nat
  output : Option (Except IOError Nat)

/-- src/tcp.rs, AsyncTcpStream::read: builds a ReadFuture with empty output. -/
def AsyncTcpStream.read (s : AsyncTcpStream) (data : List Nat) : ReadFuture :=
  { client := s, buffer := data, output := none }

/-- src/tcp.rs, ReadFuture::poll: attempt a non-blocking read.  Ok(n) caches
Ok(n) and yields no waitable; a WouldBlock error yields one Read waitable for
the stream's raw fd (output untouched); any other error caches Err(e) and
yields no waitable.  The `ready` argument is ignored (named `_ready` in the
source). -/
def ReadFuture.poll (rf : ReadFuture) (_ready : List Waitable) :
    ReadFuture × List Waitable :=
  match rf.client.readStep rf.buffer with
  | (c, buf, .ok n) =>
      ({ client := c, buffer := buf, output := some (.ok n) }, [])
  | (c, _, .error e) =>
      if e.kind = ErrorKind.wouldBlock then
        ({ rf with client := c }, [.Fd rf.client.fd .Read])
      else
        ({ rf with client := c, output := some (.error e) }, [])

/-- src/tcp.rs, ReadFuture::take: `self.output.take()`. -/
def ReadFuture.take (rf : ReadFuture) :
    ReadFuture × Option (Except IOError Nat) :=
  ({ rf with output := none }, rf.output)

/-- src/tcp.rs, enum CloseFutureState. -/
inductive CloseFutureState where
  | Pending
  | Closed
  | Completed
deriving DecidableEq, Repr

/-- src/tcp.rs, struct CloseFuture: owned stream plus teardown state. -/
structure CloseFuture where
  client : AsyncTcpStream
  state : CloseFutureState

/-- src/tcp.rs, AsyncTcpStream::disconnect: builds a Pending CloseFuture. -/
def AsyncTcpStream.disconnect (s : AsyncTcpStream) : CloseFuture :=
  { client := s, state := .Pending }

/-- src/tcp.rs, CloseFuture::poll: from Pending, move to Closed and yield one
Close waitable for the stream's fd; from Closed or Completed, yield nothing. -/
def CloseFuture.poll (cf : CloseFuture) (_ready : List Waitable) :
    CloseFuture × List Waitable :=
  match cf.state with
  | .Pending => ({ cf with state := .Closed }, [.Fd cf.client.fd .Close])
  | .Closed => (cf, [])
  | .Completed => (cf, [])

/-- src/tcp.rs, CloseFuture::take: from Closed, move to Completed and yield
the unit result; from Pending or Completed, yield nothing. -/
def CloseFuture.take (cf : CloseFuture) : CloseFuture × Option Unit :=
  match cf.state with
  | .Closed => ({ cf with state := .Completed }, some ())
  | .Pending => (cf, none)
  | .Completed => (cf, none)

/-- src/future.rs, trait Future, specialised to a state type σ: poll consumes
ready waitables and yields newly desired ones; take extracts the result. -/
structure Future (σ : Type) (α : Type) where
  poll : σ → List Waitable → σ × List Waitable
  take : σ → σ × Option α

/-- The Future instance of ReadFuture (src/tcp.rs, impl Future for ReadFuture). -/
def ReadFuture.future : Future ReadFuture (Except IOError Nat) :=
  { poll := ReadFuture.poll, take := ReadFuture.take }

/-- The Future instance of CloseFuture (src/tcp.rs, impl Future for CloseFuture). -/
def CloseFuture.future : Future CloseFuture Unit :=
  { poll := CloseFuture.poll, take := CloseFuture.take }

/-- An externally chosen call against a future: a poll with a chosen ready
list, or a take.  Used to quantify over arbitrary interleavings. -/
inductive FOp where
  | poll (ready : List Waitable)
  | take

/-- Apply a sequence of poll/take calls to a CloseFuture, keeping the state. -/
def runClose : CloseFuture → List FOp → CloseFuture
  | cf, [] => cf
  | cf, .poll r :: ops => runClose (cf.poll r).1 ops
  | cf, .take :: ops => runClose (cf.take).1 ops

/-- Apply a sequence of poll/take calls to a ReadFuture, keeping the state. -/
def runRead : ReadFuture → List FOp → ReadFuture
  | rf, [] => rf
  | rf, .poll r :: ops => runRead (rf.poll r).1 ops
  | rf, .take :: ops => runRead (rf.take).1 ops

/-
src/runtime.rs.  The Poller owns a kqueue handle and a Vec<kqueue::Event>
buffer of delivered events.  Every delivered event the code ever handles is a
Read-filter event carrying a file descriptor (Poller::events panics on any
other filter, and block_on only registers Read filters), so a delivered event
is modelled as the Int it names.  The kqueue handle itself is modelled by a
Kernel state: the interest set plus an oracle giving the result of each
successive kevent(2) call, either an error or the list of delivered events.
rustix's kevent writes delivered events into the eventlist Vec it is given,
replacing its previous contents.
-/

/-- A kqueue interest-set change submitted through a kevent call:
EV_ADD of a Read filter, or EV_DELETE of a Read filter. -/
inductive KChange where
  | add (fd : Int)
  | del (fd : Int)
deriving DecidableEq, Repr

/-- The kernel side of the kqueue handle: the Read-interest set, plus an
oracle giving the outcome of each successive kevent(2) call (pos counts the
calls made so far). -/
structure Kernel where
  interest : List Int
  oracle : Nat → Except IOError (List Int)
  pos : Nat

/-- Apply one interest-set change. -/
def Kernel.applyChange (s : List Int) : KChange → List Int
  | .add fd => if s.contains fd then s else fd :: s
  | .del fd => s.filter (fun x => x ≠ fd)

/-- One kevent(2) call with the given changelist: consumes the next oracle
outcome; on success the changes are applied to the interest set and the
delivered events are returned; on error nothing is applied. -/
def Kernel.call (k : Kernel) (changes : List KChange) :
    Kernel × Except IOError (List Int) :=
  match k.oracle k.pos with
  | .ok evs =>
      ({ interest := changes.foldl Kernel.applyChange k.interest,
         oracle := k.oracle, pos := k.pos + 1 }, .ok evs)
  | .error e => ({ k with pos := k.pos + 1 }, .error e)

/-- src/runtime.rs, struct Poller: the user-space side, i.e. the events
buffer (Vec<kqueue::Event>); the queue handle lives in the Kernel state. -/
structure Poller where
  events : List Int

/-- src/runtime.rs, Poller::register_read: one kevent call with an EV_ADD
change for a Read filter on fd, delivering any events into self.events. -/
def Poller.register_read (p : Poller) (k : Kernel) (fd : Int) :
    Poller × Kernel × Except IOError Nat :=
  match Kernel.call k [.add fd] with
  | (k1, .ok evs) => ({ events := evs }, k1, .ok evs.length)
  | (k1, .error e) => (p, k1, .error e)

/-- src/runtime.rs, Poller::unregister_read: one kevent call with an
EV_DELETE change for a Read filter on fd; delivered events go into a local
zero-capacity Vec, so self.events is untouched and the count is 0. -/
def Poller.unregister_read (p : Poller) (k : Kernel) (fd : Int) :
    Poller × Kernel × Except IOError Nat :=
  match Kernel.call k [.del fd] with
  | (k1, .ok _) => (p, k1, .ok 0)
  | (k1, .error e) => (p, k1, .error e)

/-- src/runtime.rs, Poller::wait: one kevent call with an empty changelist
and no timeout, delivering the events into self.events. -/
def Poller.wait (p : Poller) (k : Kernel) :
    Poller × Kernel × Except IOError Nat :=
  match Kernel.call k [] with
  | (k1, .ok evs) => ({ events := evs }, k1, .ok evs.length)
  | (k1, .error e) => (p, k1, .error e)

/-- src/runtime.rs, Poller::events: translate the delivered-event buffer into
Waitables (every event carries a Read filter, see the note above). -/
def Poller.eventsAsWaitables (p : Poller) : List Waitable :=
  p.events.map (fun fd => Waitable.Fd fd .Read)

/-- The body of block_on's `for waitable in fut.poll(...)` loop, folded over
the yielded waitables with the running should_wait flag: a Read waitable sets
should_wait and registers the fd; a Close waitable unregisters the fd and
leaves should_wait alone.  A kevent error stops the loop (the `?` operator)
and is reported in the fourth component. -/
def Poller.processWaitables (p : Poller) (k : Kernel) (sw : Bool) :
    List Waitable → Poller × Kernel × Bool × Option IOError
  | [] => (p, k, sw, none)
  | .Fd fd .Read :: ws =>
      match p.register_read k fd with
      | (p1, k1, .ok _) => Poller.processWaitables p1 k1 true ws
      | (p1, k1, .error e) => (p1, k1, true, some e)
  | .Fd fd .Close :: ws =>
      match p.unregister_read k fd with
      | (p1, k1, .ok _) => Poller.processWaitables p1 k1 sw ws
      | (p1, k1, .error e) => (p1, k1, sw, some e)

/-- How one block_on invocation ends: the future's output (Ok), a propagated
kevent error (the `?` operator), the `panic!` on the no-interest-no-result
path, or fuel exhaustion standing for a run still looping. -/
inductive DriveResult (α : Type) where
  | ok (v : α)
  | ioError (e : IOError)
  | panicked
  | fuelOut

/-- Outcome of one iteration of block_on's loop: either the invocation ends
with a result, or the loop continues with updated states. -/
inductive IterOut (σ : Type) (α : Type) where
  | done (r : DriveResult α) (s : σ) (p : Poller) (k : Kernel)
  | next (s : σ) (p : Poller) (k : Kernel)

/-- One iteration of src/runtime.rs, Poller::block_on's loop: poll the future
against the buffered events translated to waitables; process the yielded
waitables (register/unregister, accumulate should_wait from false); clear the
events buffer; then either wait (should_wait) and continue, or take the
result (returning it, or panicking when there is none). -/
def driveIter {σ α : Type} (F : Future σ α) (s : σ) (p : Poller) (k : Kernel) :
    IterOut σ α :=
  match F.poll s p.eventsAsWaitables with
  | (s1, ws) =>
    match p.processWaitables k false ws with
    | (p1, k1, _sw, some e) => .done (.ioError e) s1 p1 k1
    | (p1, k1, sw, none) =>
      let p2 : Poller := { p1 with events := [] }
      if sw then
        match p2.wait k1 with
        | (p3, k2, .ok _) => .next s1 p3 k2
        | (p3, k2, .error e) => .done (.ioError e) s1 p3 k2
      else
        match F.take s1 with
        | (s2, some v) => .done (.ok v) s2 p2 k1
        | (s2, none) => .done .panicked s2 p2 k1

/-- src/runtime.rs, Poller::block_on: iterate driveIter.  The Rust loop has
no bound; fuel makes the model total, with fuelOut standing for a run that
has not yet exited. -/
def block_on {σ α : Type} (F : Future σ α) :
    Nat → σ → Poller → Kernel → DriveResult α × σ × Poller × Kernel
  | 0, s, p, k => (.fuelOut, s, p, k)
  | n + 1, s, p, k =>
      match driveIter F s p k with
      | .done r s1 p1 k1 => (r, s1, p1, k1)
      | .next s1 p1 k1 => block_on F n s1 p1 k1

/-- The interest-set change block_on submits for one waitable: EV_ADD for a
Read waitable, EV_DELETE for a Close waitable. -/
def waitableChange : Waitable → KChange
  | .Fd fd .Read => .add fd
  | .Fd fd .Close => .del fd

/- ### Helper lemmas -/

/-- A CloseFuture in the Completed state is a fixed point of every poll/take
sequence. -/
theorem runClose_completed (ops : List FOp) (c : AsyncTcpStream) :
    runClose ⟨c, .Completed⟩ ops = ⟨c, .Completed⟩ := by
  induction ops with
  | nil => rfl
  | cons op ops ih =>
      cases op with
      | poll r => simpa [runClose, CloseFuture.poll] using ih
      | take => simpa [runClose, CloseFuture.take] using ih

/-- When the next read attempt reports WouldBlock, poll only advances the
attempt counter and yields one Read waitable for the stream's descriptor. -/
theorem ReadFuture.poll_wouldBlock (rf : ReadFuture) (ready : List Waitable)
    (h : rf.client.readSeq rf.client.readPos = .err ⟨.wouldBlock⟩) :
    rf.poll ready =
      ({ rf with client := { rf.client with readPos := rf.client.readPos + 1 } },
        [.Fd rf.client.fd .Read]) := by
  simp [ReadFuture.poll, AsyncTcpStream.readStep, h]

/-- A ReadFuture with no cached output, over a stream that always reports
WouldBlock, keeps an empty output through every poll/take sequence. -/
theorem runRead_wouldBlock (ops : List FOp) :
    ∀ rf : ReadFuture, rf.output = none →
      (∀ i, rf.client.readSeq i = .err ⟨.wouldBlock⟩) →
      (runRead rf ops).output = none := by
  induction ops with
  | nil => intro rf h _; exact h
  | cons op ops ih =>
      intro rf h hseq
      cases op with
      | poll r =>
          rw [runRead, ReadFuture.poll_wouldBlock rf r (hseq rf.client.readPos)]
          exact ih _ h (fun i => hseq i)
      | take => exact ih _ rfl (fun i => hseq i)

/-- A kevent call never changes the oracle of outcomes. -/
theorem Kernel.call_oracle (k : Kernel) (cs : List KChange) :
    ((Kernel.call k cs).1).oracle = k.oracle := by
  unfold Kernel.call
  cases k.oracle k.pos <;> simp

/-- register_read never changes the kernel oracle. -/
theorem Poller.register_read_oracle (p : Poller) (k : Kernel) (fd : Int) :
    ((p.register_read k fd).2.1).oracle = k.oracle := by
  have hc := Kernel.call_oracle k [.add fd]
  unfold Poller.register_read
  rcases h : Kernel.call k [.add fd] with ⟨k1, r⟩
  rw [h] at hc
  cases r <;> simpa using hc

/-- unregister_read never changes the kernel oracle. -/
theorem Poller.unregister_read_oracle (p : Poller) (k : Kernel) (fd : Int) :
    ((p.unregister_read k fd).2.1).oracle = k.oracle := by
  have hc := Kernel.call_oracle k [.del fd]
  unfold Poller.unregister_read
  rcases h : Kernel.call k [.del fd] with ⟨k1, r⟩
  rw [h] at hc
  cases r <;> simpa using hc

/-- Processing the waitables of one iteration never changes the kernel
oracle. -/
theorem Poller.processWaitables_oracle (ws : List Waitable) :
    ∀ (p : Poller) (k : Kernel) (sw : Bool),
      (((p.processWaitables k sw ws).2.1)).oracle = k.oracle := by
  induction ws with
  | nil => intro p k sw; rfl
  | cons w ws ih =>
      intro p k sw
      cases w with
      | Fd fd i =>
          cases i with
          | Read =>
              rw [Poller.processWaitables]
              have hr := Poller.register_read_oracle p k fd
              rcases h : p.register_read k fd with ⟨p1, k1, r⟩
              rw [h] at hr
              cases r with
              | ok n => rw [ih p1 k1 true]; exact hr
              | error e => exact hr
          | Close =>
              rw [Poller.processWaitables]
              have hr := Poller.unregister_read_oracle p k fd
              rcases h : p.unregister_read k fd with ⟨p1, k1, r⟩
              rw [h] at hr
              cases r with
              | ok n => rw [ih p1 k1 sw]; exact hr
              | error e => exact hr

/-- A successful register_read adds the descriptor to the kernel's
Read-interest set. -/
theorem Poller.register_read_ok (p : Poller) (k : Kernel) (fd : Int)
    (p1 : Poller) (k1 : Kernel) (n : Nat)
    (h : p.register_read k fd = (p1, k1, .ok n)) :
    k1.interest = Kernel.applyChange k.interest (.add fd) := by
  unfold Poller.register_read Kernel.call at h
  cases ho : k.oracle k.pos <;> rw [ho] at h <;> simp_all
  rw [← h.2.1]

/-- A successful unregister_read removes the descriptor from the kernel's
Read-interest set. -/
theorem Poller.unregister_read_ok (p : Poller) (k : Kernel) (fd : Int)
    (p1 : Poller) (k1 : Kernel) (n : Nat)
    (h : p.unregister_read k fd = (p1, k1, .ok n)) :
    k1.interest = Kernel.applyChange k.interest (.del fd) := by
  unfold Poller.unregister_read Kernel.call at h
  cases ho : k.oracle k.pos <;> rw [ho] at h <;> simp_all
  rw [← h.2.1]

/-- A successful wait advances the oracle position by one and fills the
events buffer with exactly the delivered batch. -/
theorem Poller.wait_ok (p : Poller) (k : Kernel) (p1 : Poller) (k1 : Kernel)
    (n : Nat) (h : p.wait k = (p1, k1, .ok n)) :
    k1.oracle = k.oracle ∧ k1.pos = k.pos + 1 ∧ k.oracle k.pos = .ok p1.events := by
  unfold Poller.wait Kernel.call at h
  cases ho : k.oracle k.pos <;> rw [ho] at h <;> simp_all
  rw [← h.1, ← h.2.1]
  exact ⟨rfl, rfl, rfl⟩

/-- Inversion of driveIter on the success exit: an iteration can only end
with Ok v through the take branch, so v is exactly the populated result of a
take call on the state the iteration's own poll produced. -/
theorem driveIter_done_ok {σ α : Type} (F : Future σ α) (s : σ) (p : Poller)
    (k : Kernel) (v : α) (s' : σ) (p' : Poller) (k' : Kernel)
    (h : driveIter F s p k = .done (.ok v) s' p' k') :
    ∃ (s1 : σ) (ws : List Waitable),
      F.poll s p.eventsAsWaitables = (s1, ws) ∧ F.take s1 = (s', some v) := by
  unfold driveIter at h
  split at h
  rename_i s1 ws hp
  split at h
  · simp at h
  · rename_i p1 k1 sw hw
    simp only at h
    split at h
    · split at h <;> simp at h
    · split at h
      · rename_i s2 u ht
        simp only [IterOut.done.injEq, DriveResult.ok.injEq] at h
        exact ⟨s1, ws, hp, by rw [ht, h.1, h.2.1]⟩
      · simp at h

/- ### Claim theorems -/

/-- Claim C1, counterexample.  The claim says that for every Computation,
once take has first returned a populated result, every subsequent take
returns nothing regardless of interleaved poll calls.  For a ReadFuture this
fails: ReadFuture::take is `self.output.take()`, and a later poll whose
underlying read succeeds repopulates `output`, so a second take returns a
populated result again.  Concretely: a stream whose every read delivers the
byte 7, polled, taken, polled again, taken again — both takes are populated. -/
theorem read_take_repopulated_after_poll_cex :
    let rf0 : ReadFuture := ⟨⟨3, fun _ => .ok [7], 0⟩, [0], none⟩
    let t1 := ((rf0.poll []).1).take
    let t2 := (((t1.1).poll []).1).take
    t1.2 = some (.ok 1) ∧ t2.2 = some (.ok 1) :=
  ⟨rfl, rfl⟩

/-- Claim C1, amended.  For a CloseFuture the claim holds as stated: once
take has returned the populated unit result, every subsequent take returns
nothing regardless of interleaved poll calls.  For a ReadFuture it holds
provided no interleaved poll completes another underlying read: when every
read attempt of the stream reports WouldBlock, once take has returned a
populated result, every subsequent take returns nothing regardless of
interleaved poll calls. -/
theorem exactly_once_result_amended :
    (∀ (cf cf' : CloseFuture) (v : Unit), cf.take = (cf', some v) →
      ∀ ops : List FOp, ((runClose cf' ops).take).2 = none) ∧
    (∀ (rf rf' : ReadFuture) (v : Except IOError Nat), rf.take = (rf', some v) →
      (∀ i, rf.client.readSeq i = .err ⟨.wouldBlock⟩) →
      ∀ ops : List FOp, ((runRead rf' ops).take).2 = none) := by
  constructor
  · intro cf cf' v h ops
    cases hs : cf.state with
    | Pending => rw [CloseFuture.take, hs] at h; simp at h
    | Completed => rw [CloseFuture.take, hs] at h; simp at h
    | Closed =>
        rw [CloseFuture.take, hs] at h
        have hcf : cf' = ⟨cf.client, .Completed⟩ := by
          have := congrArg Prod.fst h
          simp at this
          rw [← this]
        rw [hcf, runClose_completed, CloseFuture.take]
  · intro rf rf' v h hseq ops
    have hrf : rf' = { rf with output := none } := by
      have := congrArg Prod.fst h
      simpa [ReadFuture.take] using this.symm
    have hout : (runRead rf' ops).output = none := by
      refine runRead_wouldBlock ops rf' ?_ ?_
      · rw [hrf]
      · rw [hrf]; exact hseq
    rw [ReadFuture.take, hout]

/-- Claim C1, witness for the amended theorem: a Closed CloseFuture taken
once, then polled and taken; and a ReadFuture over an always-WouldBlock
stream whose output was just taken, then polled and taken. -/
theorem exactly_once_result_amended_witness :
    ((runClose ⟨⟨3, fun _ => .err ⟨.wouldBlock⟩, 0⟩, .Completed⟩
        [.poll [], .take]).take).2 = none ∧
    ((runRead ⟨⟨3, fun _ => .err ⟨.wouldBlock⟩, 0⟩, [0], none⟩
        [.poll [], .take]).take).2 = none :=
  ⟨exactly_once_result_amended.1 ⟨⟨3, fun _ => .err ⟨.wouldBlock⟩, 0⟩, .Closed⟩
      ⟨⟨3, fun _ => .err ⟨.wouldBlock⟩, 0⟩, .Completed⟩ () rfl [.poll [], .take],
    exactly_once_result_amended.2
      ⟨⟨3, fun _ => .err ⟨.wouldBlock⟩, 0⟩, [0], some (.ok 1)⟩
      ⟨⟨3, fun _ => .err ⟨.wouldBlock⟩, 0⟩, [0], none⟩ (.ok 1) rfl
      (fun _ => rfl) [.poll [], .take]⟩

/-- Claim C2: a freshly created CloseFuture is Pending; its first poll moves
it to Closed and yields exactly one Close waitable for the stream's
descriptor; the first take thereafter returns the unit result and moves it to
Completed; and from Completed every further poll returns an empty sequence,
every further take returns nothing, and any poll/take sequence leaves the
state Completed. -/
theorem close_future_state_machine (s : AsyncTcpStream)
    (ready ready2 : List Waitable) (ops : List FOp) :
    (s.disconnect).state = .Pending ∧
    (s.disconnect).poll ready = (⟨s, .Closed⟩, [.Fd s.fd .Close]) ∧
    CloseFuture.take ⟨s, .Closed⟩ = (⟨s, .Completed⟩, some ()) ∧
    CloseFuture.poll ⟨s, .Completed⟩ ready2 = (⟨s, .Completed⟩, []) ∧
    CloseFuture.take ⟨s, .Completed⟩ = (⟨s, .Completed⟩, none) ∧
    runClose ⟨s, .Completed⟩ ops = ⟨s, .Completed⟩ :=
  ⟨rfl, rfl, rfl, rfl, rfl, runClose_completed ops s⟩

/-- Claim C3: a ReadFuture whose result has not yet been produced, polled
with any ready argument while the stream's read reports WouldBlock, yields
exactly one Read waitable for the stream's raw descriptor, and a subsequent
take returns nothing. -/
theorem would_block_round_trip (rf : ReadFuture) (ready : List Waitable)
    (hout : rf.output = none)
    (hwb : rf.client.readSeq rf.client.readPos = .err ⟨.wouldBlock⟩) :
    (rf.poll ready).2 = [.Fd rf.client.fd .Read] ∧
    (((rf.poll ready).1).take).2 = none := by
  rw [ReadFuture.poll_wouldBlock rf ready hwb]
  exact ⟨rfl, hout⟩

/-- Claim C3, witness: a fresh read future over a would-blocking stream. -/
theorem would_block_round_trip_witness :
    ((ReadFuture.poll ⟨⟨3, fun _ => .err ⟨.wouldBlock⟩, 0⟩, [0, 0], none⟩ []).2 =
        [.Fd 3 .Read]) ∧
    (((ReadFuture.poll ⟨⟨3, fun _ => .err ⟨.wouldBlock⟩, 0⟩, [0, 0], none⟩
        []).1).take).2 = none :=
  would_block_round_trip ⟨⟨3, fun _ => .err ⟨.wouldBlock⟩, 0⟩, [0, 0], none⟩ []
    rfl rfl

/-- Claim C4: when the stream's read succeeds and delivers `data` (which fits
the caller's buffer), poll returns an empty waitable sequence, the next take
returns the byte count, and the read bytes sit at the front of the caller's
buffer. -/
theorem readiness_delivers_result (rf : ReadFuture) (ready : List Waitable)
    (data : List Nat)
    (hok : rf.client.readSeq rf.client.readPos = .ok data)
    (hlen : data.length ≤ rf.buffer.length) :
    (rf.poll ready).2 = [] ∧
    (((rf.poll ready).1).take).2 = some (.ok data.length) ∧
    ((rf.poll ready).1).buffer.take data.length = data := by
  rw [ReadFuture.poll, AsyncTcpStream.readStep, hok]
  simp [ReadFuture.take, List.take_of_length_le hlen]

/-- Claim C4, witness: a stream delivering two bytes into a three-byte
buffer. -/
theorem readiness_delivers_result_witness :
    ((ReadFuture.poll ⟨⟨3, fun _ => .ok [7, 8], 0⟩, [0, 0, 0], none⟩ []).2 = []) ∧
    ((((ReadFuture.poll ⟨⟨3, fun _ => .ok [7, 8], 0⟩, [0, 0, 0], none⟩
        []).1).take).2 = some (.ok 2)) ∧
    (((ReadFuture.poll ⟨⟨3, fun _ => .ok [7, 8], 0⟩, [0, 0, 0], none⟩
        []).1).buffer.take 2 = [7, 8]) :=
  readiness_delivers_result ⟨⟨3, fun _ => .ok [7, 8], 0⟩, [0, 0, 0], none⟩ []
    [7, 8] rfl (by decide)

/-- Claim C5: when the stream's read fails with a non-WouldBlock error, poll
returns an empty waitable sequence and the next take returns that very error
as the computation's result.  (poll's return type carries no error channel,
so the error cannot escape poll out-of-band.) -/
theorem error_captured_as_result (rf : ReadFuture) (ready : List Waitable)
    (e : IOError)
    (herr : rf.client.readSeq rf.client.readPos = .err e)
    (hkind : e.kind ≠ .wouldBlock) :
    (rf.poll ready).2 = [] ∧
    (((rf.poll ready).1).take).2 = some (.error e) := by
  rw [ReadFuture.poll, AsyncTcpStream.readStep, herr]
  simp [hkind, ReadFuture.take]

/-- Claim C5, witness: a stream reporting the non-WouldBlock error code 54
(connection reset). -/
theorem error_captured_as_result_witness :
    ((ReadFuture.poll ⟨⟨3, fun _ => .err ⟨.other 54⟩, 0⟩, [0], none⟩ []).2 = []) ∧
    (((ReadFuture.poll ⟨⟨3, fun _ => .err ⟨.other 54⟩, 0⟩, [0], none⟩
        []).1).take).2 = some (.error ⟨.other 54⟩) :=
  error_captured_as_result ⟨⟨3, fun _ => .err ⟨.other 54⟩, 0⟩, [0], none⟩ []
    ⟨.other 54⟩ rfl (by decide)

/-- Claim C10: ReadFuture::poll never reads its ready argument (it is bound
as `_ready` in the source), so polling the same future state with any two
ready sequences performs the same read attempt, yields the same waitable
sequence, and leaves the future in the same state. -/
theorem poll_ignores_ready (rf : ReadFuture) (r1 r2 : List Waitable) :
    rf.poll r1 = rf.poll r2 :=
  rfl

/-- Claim C6: block_on never fabricates a success value — whenever it
returns Ok v, the value v (paired with the returned future state) is exactly
a populated result some take call returned on a state produced by a poll
call; the only other exits are a propagated kevent error (ioError), the
internal-consistency panic, or not exiting at all (fuelOut). -/
theorem no_spurious_completion {σ α : Type} (F : Future σ α) (fuel : Nat) :
    ∀ (s : σ) (p : Poller) (k : Kernel) (v : α) (s' : σ) (p' : Poller)
      (k' : Kernel),
      block_on F fuel s p k = (.ok v, s', p', k') →
      ∃ (p0 : Poller) (t t1 : σ) (ws : List Waitable),
        F.poll t p0.eventsAsWaitables = (t1, ws) ∧ F.take t1 = (s', some v) := by
  induction fuel with
  | zero =>
      intro s p k v s' p' k' h
      rw [block_on] at h
      simp at h
  | succ n ih =>
      intro s p k v s' p' k' h
      rw [block_on] at h
      cases hd : driveIter F s p k with
      | done r s1 p1 k1 =>
          rw [hd] at h
          simp only [Prod.mk.injEq] at h
          obtain ⟨hr, hs, _, _⟩ := h
          subst hr
          subst hs
          obtain ⟨t1, ws, hpoll, htake⟩ := driveIter_done_ok F s p k v s1 p1 k1 hd
          exact ⟨p, s, t1, ws, hpoll, htake⟩
      | next s1 p1 k1 =>
          rw [hd] at h
          exact ih s1 p1 k1 v s' p' k' h

/-- Claim C6, witness: driving a fresh CloseFuture through block_on returns
Ok () for its Completed state, so a take call yielding that pair exists. -/
theorem no_spurious_completion_witness :
    ∃ (p0 : Poller) (t t1 : CloseFuture) (ws : List Waitable),
      CloseFuture.future.poll t p0.eventsAsWaitables = (t1, ws) ∧
      CloseFuture.future.take t1 =
        (⟨⟨3, fun _ => .err ⟨.wouldBlock⟩, 0⟩, .Completed⟩, some ()) :=
  no_spurious_completion CloseFuture.future 1
    (AsyncTcpStream.disconnect ⟨3, fun _ => .err ⟨.wouldBlock⟩, 0⟩)
    ⟨[]⟩ ⟨[], fun _ => .ok [], 0⟩ ()
    ⟨⟨3, fun _ => .err ⟨.wouldBlock⟩, 0⟩, .Completed⟩
    ⟨[]⟩ ⟨[], fun _ => .ok [], 1⟩ rfl

/-- Claim C7: over the waitables one poll call yielded, the drive loop's
dispatch (processWaitables, starting from should_wait = sw) ends — when every
kevent call succeeds — with should_wait raised exactly when some waitable
carries Read interest (a Close waitable alone never raises it), and with the
kernel's Read-interest set updated by, per waitable, an EV_ADD of the
descriptor for Read interest and an EV_DELETE of the descriptor for Close
interest. -/
theorem waitable_dispatch (ws : List Waitable) :
    ∀ (p : Poller) (k : Kernel) (sw : Bool) (p' : Poller) (k' : Kernel)
      (b : Bool),
      p.processWaitables k sw ws = (p', k', b, none) →
      b = (sw || ws.any Waitable.isRead) ∧
      k'.interest =
        ws.foldl (fun st w => Kernel.applyChange st (waitableChange w))
          k.interest := by
  induction ws with
  | nil =>
      intro p k sw p' k' b h
      rw [Poller.processWaitables] at h
      simp only [Prod.mk.injEq] at h
      obtain ⟨_, hk, hb, _⟩ := h
      subst hk
      subst hb
      simp
  | cons w ws ih =>
      intro p k sw p' k' b h
      cases w with
      | Fd fd i =>
          cases i with
          | Read =>
              rw [Poller.processWaitables] at h
              rcases hreg : p.register_read k fd with ⟨p1, k1, r⟩
              rw [hreg] at h
              cases r with
              | error e => simp at h
              | ok n =>
                  obtain ⟨hb, hint⟩ := ih p1 k1 true p' k' b h
                  refine ⟨?_, ?_⟩
                  · rw [hb]; simp [Waitable.isRead]
                  · rw [hint, Poller.register_read_ok p k fd p1 k1 n hreg,
                      List.foldl_cons]
                    rfl
          | Close =>
              rw [Poller.processWaitables] at h
              rcases hreg : p.unregister_read k fd with ⟨p1, k1, r⟩
              rw [hreg] at h
              cases r with
              | error e => simp at h
              | ok n =>
                  obtain ⟨hb, hint⟩ := ih p1 k1 sw p' k' b h
                  refine ⟨?_, ?_⟩
                  · rw [hb]; simp [Waitable.isRead]
                  · rw [hint, Poller.unregister_read_ok p k fd p1 k1 n hreg,
                      List.foldl_cons]
                    rfl

/-- Claim C7, witness: one Read waitable for fd 3 then one Close waitable for
fd 4, against an empty interest set and an always-succeeding kernel. -/
theorem waitable_dispatch_witness :
    (true = (false || ([Waitable.Fd 3 .Read, Waitable.Fd 4 .Close].any
        Waitable.isRead))) ∧
    ((⟨[3], fun _ => .ok [], 2⟩ : Kernel).interest =
      [Waitable.Fd 3 .Read, Waitable.Fd 4 .Close].foldl
        (fun st w => Kernel.applyChange st (waitableChange w))
        (⟨[], fun _ => .ok [], 0⟩ : Kernel).interest) :=
  waitable_dispatch [Waitable.Fd 3 .Read, Waitable.Fd 4 .Close]
    ⟨[]⟩ ⟨[], fun _ => .ok [], 0⟩ false ⟨[]⟩ ⟨[3], fun _ => .ok [], 2⟩ true rfl

/-- Claim C8: in an iteration where poll requests no registration (the
dispatch ends with should_wait still false) and take then returns nothing,
block_on panics at once — it neither loops again nor returns a value,
whatever fuel remains. -/
theorem internal_consistency_panic {σ α : Type} (F : Future σ α) (n : Nat)
    (s : σ) (p : Poller) (k : Kernel) (s1 : σ) (ws : List Waitable)
    (p1 : Poller) (k1 : Kernel) (s2 : σ)
    (hp : F.poll s p.eventsAsWaitables = (s1, ws))
    (hw : p.processWaitables k false ws = (p1, k1, false, none))
    (ht : F.take s1 = (s2, none)) :
    block_on F (n + 1) s p k = (.panicked, s2, { p1 with events := [] }, k1) := by
  rw [block_on]
  unfold driveIter
  rw [hp]
  simp only [hw, ht]
  simp

/-- Claim C8, witness: a CloseFuture already in the Completed state polls to
an empty waitable list and takes to nothing, so block_on panics. -/
theorem internal_consistency_panic_witness :
    block_on CloseFuture.future 1
      ⟨⟨3, fun _ => .err ⟨.wouldBlock⟩, 0⟩, .Completed⟩ ⟨[]⟩
      ⟨[], fun _ => .ok [], 0⟩ =
      (.panicked, ⟨⟨3, fun _ => .err ⟨.wouldBlock⟩, 0⟩, .Completed⟩, ⟨[]⟩,
        ⟨[], fun _ => .ok [], 0⟩) :=
  internal_consistency_panic CloseFuture.future 0
    ⟨⟨3, fun _ => .err ⟨.wouldBlock⟩, 0⟩, .Completed⟩ ⟨[]⟩
    ⟨[], fun _ => .ok [], 0⟩
    ⟨⟨3, fun _ => .err ⟨.wouldBlock⟩, 0⟩, .Completed⟩ [] ⟨[]⟩
    ⟨[], fun _ => .ok [], 0⟩
    ⟨⟨3, fun _ => .err ⟨.wouldBlock⟩, 0⟩, .Completed⟩ rfl rfl rfl

/-- Claim C9: the delivered-event buffer never survives an iteration.  When
an iteration continues, the buffer handed to the next iteration's poll is
exactly the batch its own wait call delivered (the kernel oracle entry just
consumed), so events fed to this iteration's poll are never replayed; when an
iteration exits through the take branch (Ok or the panic), the buffer was
already cleared. -/
theorem event_buffer_cleared {σ α : Type} (F : Future σ α) :
    (∀ (s : σ) (p : Poller) (k : Kernel) (s' : σ) (p' : Poller) (k' : Kernel),
      driveIter F s p k = .next s' p' k' →
      k'.oracle = k.oracle ∧ k'.oracle (k'.pos - 1) = .ok p'.events) ∧
    (∀ (s : σ) (p : Poller) (k : Kernel) (r : DriveResult α) (s' : σ)
        (p' : Poller) (k' : Kernel),
      driveIter F s p k = .done r s' p' k' →
      (r = .panicked ∨ ∃ v, r = .ok v) → p'.events = []) := by
  constructor
  · intro s p k s' p' k' h
    unfold driveIter at h
    split at h
    rename_i s1 ws hp
    split at h
    · simp at h
    · rename_i p1 k1 sw hw
      have horacle : k1.oracle = k.oracle := by
        have := Poller.processWaitables_oracle ws p k false
        rw [hw] at this
        exact this
      simp only at h
      split at h
      · split at h
        · rename_i p3 k2 m hq
          obtain ⟨ho1, ho2, ho3⟩ :=
            Poller.wait_ok { p1 with events := [] } k1 p3 k2 m hq
          simp only [IterOut.next.injEq] at h
          obtain ⟨_, hp3, hk2⟩ := h
          subst hp3
          subst hk2
          constructor
          · rw [ho1, horacle]
          · rw [ho1, ho2, horacle] at *
            simpa [horacle] using ho3
        · simp at h
      · split at h <;> simp at h
  · intro s p k r s' p' k' h hr
    unfold driveIter at h
    split at h
    rename_i s1 ws hp
    split at h
    · simp only [IterOut.done.injEq] at h
      obtain ⟨hrr, _, _, _⟩ := h
      rcases hr with hpan | ⟨v, hok⟩ <;> rw [← hrr] at * <;> simp_all
    · rename_i p1 k1 sw hw
      simp only at h
      split at h
      · split at h
        · simp at h
        · simp only [IterOut.done.injEq] at h
          obtain ⟨hrr, _, _, _⟩ := h
          rcases hr with hpan | ⟨v, hok⟩ <;> rw [← hrr] at * <;> simp_all
      · split at h <;>
          · simp only [IterOut.done.injEq] at h
            obtain ⟨_, _, hpp, _⟩ := h
            rw [← hpp]

/-- Claim C9, witness: a continuing iteration (would-block read, successful
wait delivering fd 5) whose next buffer is exactly the delivered batch, and
an exiting iteration (Completed CloseFuture, panic) whose buffer is empty. -/
theorem event_buffer_cleared_witness :
    ((⟨[3], fun _ => .ok [5], 2⟩ : Kernel).oracle =
        (⟨[], fun _ => .ok [5], 0⟩ : Kernel).oracle ∧
      (⟨[3], fun _ => .ok [5], 2⟩ : Kernel).oracle
        ((⟨[3], fun _ => .ok [5], 2⟩ : Kernel).pos - 1) =
        .ok (Poller.events ⟨[5]⟩)) ∧
    Poller.events ⟨[]⟩ = [] :=
  ⟨(event_buffer_cleared ReadFuture.future).1
      (AsyncTcpStream.read ⟨3, fun _ => .err ⟨.wouldBlock⟩, 0⟩ [0, 0])
      ⟨[]⟩ ⟨[], fun _ => .ok [5], 0⟩
      ((AsyncTcpStream.read ⟨3, fun _ => .err ⟨.wouldBlock⟩, 0⟩ [0, 0]).poll []).1
      ⟨[5]⟩ ⟨[3], fun _ => .ok [5], 2⟩ rfl,
    (event_buffer_cleared CloseFuture.future).2
      ⟨⟨3, fun _ => .err ⟨.wouldBlock⟩, 0⟩, .Completed⟩ ⟨[]⟩
      ⟨[], fun _ => .ok [], 0⟩ .panicked
      ⟨⟨3, fun _ => .err ⟨.wouldBlock⟩, 0⟩, .Completed⟩ ⟨[]⟩
      ⟨[], fun _ => .ok [], 0⟩ rfl (Or.inl rfl)⟩

end PlaygroundFuture
